import Mathlib

/-!
Verification of the equi-exchange negotiation core
(`backend/app/agents.py`, `backend/app/theory_of_mind_agent.py`,
`backend/app/unified_agent.py`, `backend/app/explainer.py`).

Embedding conventions:
* Python floats are modelled as exact rationals (`ℚ`); `math.log` is modelled
  over `ℝ` with `Real.log`.  Floating-point rounding is not modelled.
* Python `None` for an optional number is `Option ℚ`.  Python truthiness of a
  possibly-`None` float (`if self.market_price:`) is `marketTruthy`, which is
  false both for `None` and for `0.0`.
* Mutable object state (the theory-of-mind agent's histories and beliefs) is
  threaded explicitly: each mutating method becomes a function from the old
  state to the new state.
* `run_negotiation_loop` with a non-positive `max_rounds` crashes in Python
  (`TypeError`, since the final price is computed from offers that were never
  assigned); the embedding returns `none` in that case and `some` otherwise.
-/

/-- Role derived in `BaseAgent.__init__`: the Python string
`"buyer"`/`"seller"`. -/
inductive Role where
  | buyer
  | seller
deriving DecidableEq, Repr

/-- Configuration fields set by `BaseAgent.__init__` (agents.py lines 77-98).
The constructor performs no validation: every field is stored as given. -/
structure BaseAgent where
  address : String
  target_price : ℚ
  min_price : ℚ
  max_price : ℚ
  quantity : ℤ
  fairness_weight : ℚ
  concession_rate : ℚ
  aggressiveness : ℚ
  market_price : Option ℚ
deriving DecidableEq, Repr

/-- Python truthiness of an optional float: `None` and `0.0` are falsy. -/
def marketTruthy (m : Option ℚ) : Bool :=
  match m with
  | none => false
  | some v => v != 0

/-- Agents.py line 99: `"buyer" if target_price < (min_price + max_price) / 2
else "seller"`. -/
def BaseAgent.agent_type (a : BaseAgent) : Role :=
  if a.target_price < (a.min_price + a.max_price) / 2 then Role.buyer else Role.seller

/-- Clamp to the configured band, as in
`max(self.min_price, min(self.max_price, proposed))`. -/
def BaseAgent.clamp (a : BaseAgent) (p : ℚ) : ℚ :=
  max a.min_price (min a.max_price p)

/-- `BaseAgent.propose` (agents.py lines 101-123), translated branch by
branch.  `0.3`, `0.5`, `0.9` become `3/10`, `1/2`, `9/10`. -/
def BaseAgent.propose (a : BaseAgent) (last_offer_price : Option ℚ) : ℚ :=
  match last_offer_price with
  | none =>
    if marketTruthy a.market_price then
      let m := a.market_price.getD 0
      let proposed :=
        if a.agent_type = Role.buyer then
          a.target_price - (a.target_price - m) * (1 - a.aggressiveness) * (3 / 10)
        else
          a.target_price + (m - a.target_price) * (1 - a.aggressiveness) * (3 / 10)
      a.clamp proposed
    else
      a.target_price
  | some last =>
    let delta := last - a.target_price
    let cf0 := 1 / 2 + (1 - a.aggressiveness) * (3 / 10)
    let cf :=
      if marketTruthy a.market_price then
        let m := a.market_price.getD 0
        if a.agent_type = Role.buyer then
          if m < last then cf0 * (9 / 10) else cf0
        else
          if m > last then cf0 * (9 / 10) else cf0
      else cf0
    a.clamp (a.target_price + delta * cf)

/-- `BaseAgent.utility` (agents.py lines 125-126):
`1.0 - abs(price - target) / max(1.0, abs(max_price - min_price))`. -/
def BaseAgent.utility (a : BaseAgent) (price : ℚ) : ℚ :=
  1 - |price - a.target_price| / max 1 |a.max_price - a.min_price|

/-- Simple fairness as computed inline in the loop (agents.py line 180):
`1.0 - abs(buyer_util - seller_util)`. -/
def simple_fairness (buyer_util seller_util : ℚ) : ℚ :=
  1 - |buyer_util - seller_util|

/-- `calculate_proportional_fairness` (agents.py lines 128-132):
`log(max(1e-6, u1)) + log(max(1e-6, u2))`. -/
noncomputable def calculate_proportional_fairness (buyer_util seller_util : ℝ) : ℝ :=
  Real.log (max (1 / 1000000) buyer_util) + Real.log (max (1 / 1000000) seller_util)

/-- Membership of the clamp in the band. -/
theorem BaseAgent.clamp_mem (a : BaseAgent) (p : ℚ) (h : a.min_price ≤ a.max_price) :
    a.min_price ≤ a.clamp p ∧ a.clamp p ≤ a.max_price := by
  unfold BaseAgent.clamp
  constructor
  · exact le_max_left _ _
  · exact max_le h (min_le_left _ _)

/-- C3: on a valid configuration the utility of any in-band price lies in
`[0, 1]`, and the utility of the target price is exactly `1`. -/
theorem utility_bounds (a : BaseAgent) (p : ℚ)
    (h1 : a.min_price ≤ a.target_price) (h2 : a.target_price ≤ a.max_price)
    (hp1 : a.min_price ≤ p) (hp2 : p ≤ a.max_price) :
    0 ≤ a.utility p ∧ a.utility p ≤ 1 ∧ a.utility a.target_price = 1 := by
  have hd : (0 : ℚ) < max 1 |a.max_price - a.min_price| :=
    lt_of_lt_of_le one_pos (le_max_left _ _)
  refine ⟨?_, ?_, ?_⟩
  · unfold BaseAgent.utility
    have habs : |p - a.target_price| ≤ a.max_price - a.min_price := by
      rw [abs_le]
      constructor <;> linarith
    have hle : |p - a.target_price| ≤ max 1 |a.max_price - a.min_price| := by
      refine le_trans habs (le_trans ?_ (le_max_right _ _))
      exact le_abs_self _
    have := (div_le_one hd).mpr hle
    linarith
  · unfold BaseAgent.utility
    have : 0 ≤ |p - a.target_price| / max 1 |a.max_price - a.min_price| :=
      div_nonneg (abs_nonneg _) (le_of_lt hd)
    linarith
  · unfold BaseAgent.utility
    simp

/-- Witness for `utility_bounds` at a concrete configuration and price. -/
theorem utility_bounds_witness :
    let a : BaseAgent := ⟨"0xb", 85, 50, 100, 1, 1/2, 1/20, 1/2, none⟩
    0 ≤ a.utility 90 ∧ a.utility 90 ≤ 1 ∧ a.utility a.target_price = 1 :=
  utility_bounds ⟨"0xb", 85, 50, 100, 1, 1/2, 1/20, 1/2, none⟩ 90
    (by norm_num) (by norm_num) (by norm_num) (by norm_num)

/-- C8: simple fairness of equal utilities is `1`, and proportional fairness
is symmetric in its two arguments. -/
theorem fairness_algebra :
    (∀ u : ℚ, simple_fairness u u = 1) ∧
    (∀ u1 u2 : ℝ,
      calculate_proportional_fairness u1 u2 = calculate_proportional_fairness u2 u1) := by
  constructor
  · intro u
    unfold simple_fairness
    simp
  · intro u1 u2
    unfold calculate_proportional_fairness
    exact add_comm _ _

/-- C9: the derived role is `buyer` exactly when the target is strictly below
the midpoint of the band; a target equal to the midpoint yields `seller`. -/
theorem agent_type_midpoint (a : BaseAgent) :
    (a.agent_type = Role.buyer ↔ a.target_price < (a.min_price + a.max_price) / 2) ∧
    (a.target_price = (a.min_price + a.max_price) / 2 → a.agent_type = Role.seller) := by
  constructor
  · unfold BaseAgent.agent_type
    by_cases h : a.target_price < (a.min_price + a.max_price) / 2
    · simp [h]
    · simp [h]
  · intro h
    unfold BaseAgent.agent_type
    rw [if_neg]
    rw [h]
    exact lt_irrefl _

/-- Witness for `agent_type_midpoint`: a target exactly at the midpoint is
classified as seller. -/
theorem agent_type_midpoint_witness :
    let a : BaseAgent := ⟨"0xm", 75, 50, 100, 1, 1/2, 1/20, 1/2, none⟩
    a.agent_type = Role.seller :=
  (agent_type_midpoint ⟨"0xm", 75, 50, 100, 1, 1/2, 1/20, 1/2, none⟩).2 (by norm_num)

/-- C10: a configuration whose market price is `0.0` produces exactly the
same proposals as one with no market price at all, for every last offer:
Python evaluates `if self.market_price:` and `0.0` is falsy. -/
theorem propose_market_zero_eq_none (ad : String) (t mn mx : ℚ) (q : ℤ)
    (fw cr ag : ℚ) (last : Option ℚ) :
    BaseAgent.propose ⟨ad, t, mn, mx, q, fw, cr, ag, some 0⟩ last =
    BaseAgent.propose ⟨ad, t, mn, mx, q, fw, cr, ag, none⟩ last := by
  cases last <;> rfl

/-- Opponent strategy classification strings used by the theory-of-mind
agent. -/
inductive StrategyType where
  | cooperative
  | stubborn
  | moderate
deriving DecidableEq, Repr

/-- Mutable state of `TheoryOfMindAgent` (theory_of_mind_agent.py lines
28-41): the `opponent_model` dict fields that are ever read or written, plus
the offer histories and round counter.  The unused `min_price_estimate` and
`max_price_estimate` entries (never read nor written after construction) are
omitted. -/
structure TomState where
  target_price_estimate : Option ℚ
  concession_rate_estimate : ℚ
  patience_level : ℚ
  fairness_preference : ℚ
  risk_aversion : ℚ
  strategy_type : Option StrategyType
  belief_confidence : ℚ
  opponent_offer_history : List ℚ
  my_offer_history : List ℚ
  round_count : ℕ
deriving DecidableEq, Repr

/-- Initial theory-of-mind state as set by the constructor. -/
def TomState.init : TomState :=
  ⟨none, 1/20, 1/2, 1/2, 1/2, none, 0, [], [], 0⟩

/-- Arithmetic mean of a list, `np.mean`. -/
def listMean (l : List ℚ) : ℚ :=
  l.sum / l.length

/-- Absolute differences of successive elements, as accumulated by the
`concessions` loop in `update_opponent_model` (the `is not None` guard there
never fires because offers are numbers). -/
def successiveAbsDiffs (l : List ℚ) : List ℚ :=
  (l.zip l.tail).map (fun p => |p.1 - p.2|)

/-- Intercept of the degree-1 least-squares fit of `ys` against
`x = 0, 1, ..., len-1`.  This is the closed form of `coeffs[1]` returned by
`np.polyfit(rounds, offers, 1)`: for at least two points the normal
equations have the unique solution below; the degenerate branch is
unreachable in the calling code, which guarantees at least three points.
`lsSums ys x` accumulates `(count, sum x, sum y, sum x*x, sum x*y)` for the
points `(x, y0), (x+1, y1), ...`. -/
def lsSums : List ℚ → ℚ → ℚ × ℚ × ℚ × ℚ × ℚ
  | [], _ => (0, 0, 0, 0, 0)
  | y :: ys, x =>
    let (n, sx, sy, sxx, sxy) := lsSums ys (x + 1)
    (n + 1, sx + x, sy + y, sxx + x * x, sxy + x * y)

/-- Closed-form least-squares intercept from the accumulated sums. -/
def lsIntercept (ys : List ℚ) : ℚ :=
  let (n, sx, sy, sxx, sxy) := lsSums ys 0
  let denom := n * sxx - sx * sx
  if denom = 0 then sy / n
  else
    let slope := (n * sxy - sx * sy) / denom
    (sy - slope * sx) / n

/-- `TheoryOfMindAgent.update_opponent_model` (theory_of_mind_agent.py lines
43-115), as a function from the old state to the new state.  The
second-order block (lines 110-115) is `pass` in the source and contributes
nothing. -/
def update_opponent_model (cfg : BaseAgent) (s : TomState) (opponent_offer : ℚ)
    (my_last_offer : Option ℚ) : TomState :=
  let hist := s.opponent_offer_history ++ [opponent_offer]
  let myHist := match my_last_offer with
    | none => s.my_offer_history
    | some m => s.my_offer_history ++ [m]
  let rc := s.round_count + 1
  let avgConcession := listMean (successiveAbsDiffs hist)
  let crEst := if 2 ≤ hist.length then avgConcession else s.concession_rate_estimate
  let stype :=
    if 2 ≤ hist.length then
      some (if avgConcession > 1/10 then StrategyType.cooperative
            else if avgConcession < 1/50 then StrategyType.stubborn
            else StrategyType.moderate)
    else s.strategy_type
  let window := hist.drop (hist.length - 5)
  let confidence := min 1 ((window.length : ℚ) / 10)
  let tEst :=
    if 3 ≤ hist.length then
      some (match s.target_price_estimate with
            | none => lsIntercept window
            | some old => confidence * lsIntercept window + (1 - confidence) * old)
    else s.target_price_estimate
  let conf := if 3 ≤ hist.length then confidence else s.belief_confidence
  let pat :=
    if 2 ≤ hist.length then
      let total := |hist.headD 0 - hist.getLastD 0|
      let expected := (rc : ℚ) * (1/20) * (cfg.max_price - cfg.min_price)
      if total < expected * (1/2) then 4/5
      else if total > expected * (3/2) then 1/5
      else s.patience_level
    else s.patience_level
  ⟨tEst, crEst, pat, s.fairness_preference, s.risk_aversion, stype, conf, hist, myHist, rc⟩

/-- `TheoryOfMindAgent.propose` (theory_of_mind_agent.py lines 117-183).
Returns the proposed price together with the updated state.  Note that the
low-confidence fallback (lines 133-136) neither clamps its result to
`[min_price, max_price]` nor records it in `my_offer_history`. -/
def TheoryOfMindAgent.propose (cfg : BaseAgent) (s : TomState)
    (last_offer_price : Option ℚ) : ℚ × TomState :=
  match last_offer_price with
  | none => (cfg.target_price, s)
  | some last =>
    let s1 := update_opponent_model cfg s last s.my_offer_history.getLast?
    if s1.belief_confidence < 3/10 then
      (cfg.target_price + (last - cfg.target_price) * (1/2), s1)
    else
      let delta := last - cfg.target_price
      let cf : ℚ := match s1.strategy_type with
        | some StrategyType.cooperative => 2/5
        | some StrategyType.stubborn => 7/10
        | _ => 1/2
      let p0 := cfg.target_price + delta * cf
      let p1 := match s1.target_price_estimate with
        | some oppT =>
            if cfg.fairness_weight > 1/2 then
              (1 - cfg.fairness_weight) * p0 +
                cfg.fairness_weight * ((cfg.target_price + oppT) / 2)
            else p0
        | none => p0
      let p2 :=
        if s1.patience_level > 7/10 then (7/10) * p1 + (3/10) * cfg.target_price
        else if s1.patience_level < 3/10 then (9/10) * p1 + (1/10) * cfg.target_price
        else p1
      let p3 := cfg.clamp p2
      (p3, { s1 with my_offer_history := s1.my_offer_history ++ [p3] })

/-- Read-only summary dict `get_opponent_model_summary` (lines 185-194). -/
structure TomSummary where
  target_price_estimate : Option ℚ
  strategy_type : Option StrategyType
  concession_rate_estimate : ℚ
  patience_level : ℚ
  belief_confidence : ℚ
  rounds_observed : ℕ
deriving DecidableEq, Repr

/-- Builds the summary from the current state. -/
def get_opponent_model_summary (s : TomState) : TomSummary :=
  ⟨s.target_price_estimate, s.strategy_type, s.concession_rate_estimate,
    s.patience_level, s.belief_confidence, s.opponent_offer_history.length⟩


/-- C5 counterexample: after six observed opponent offers the code blends
with weight `min(1, len(last5)/10) = 1/2` (the window length, capped at 5),
not `min(1, 6/10) = 3/5` as the claim states for a total observed count of
six.  After observing `100, 90, 80, 70, 60` the prior estimate is `100`; the
sixth update with offer `55` fits the window `[90, 80, 70, 60, 55]`
(intercept `89`) and the code produces `1/2 * 89 + 1/2 * 100 = 189/2`,
whereas the claim's formula gives `3/5 * 89 + 2/5 * 100 = 467/5`. -/
theorem tom_blend_cex :
    let cfg : BaseAgent := ⟨"0xt", 0, 0, 100, 1, 1/2, 1/20, 1/2, none⟩
    let s5 := [(100:ℚ), 90, 80, 70, 60].foldl
      (fun s o => update_opponent_model cfg s o none) TomState.init
    s5.target_price_estimate = some 100 ∧
    s5.opponent_offer_history = [100, 90, 80, 70, 60] ∧
    (update_opponent_model cfg s5 55 none).target_price_estimate = some (189/2) ∧
    lsIntercept [90, 80, 70, 60, 55] = 89 ∧
    (189/2 : ℚ) ≠ min 1 ((6:ℚ)/10) * 89 + (1 - min 1 ((6:ℚ)/10)) * 100 := by
  norm_num [update_opponent_model, TomState.init, listMean, successiveAbsDiffs,
    lsIntercept, lsSums, List.foldl]

/-- C5 (amended): once at least three opponent offers are observed, the new
target estimate blends the least-squares intercept of the last up-to-5
offers with the prior using weight `min(1, w/10)` where `w` is the length of
that window — `min(total, 5)`, hence the weight never exceeds `1/2`; the
first computed estimate initializes the belief directly with no blending. -/
theorem tom_target_blend (cfg : BaseAgent) (s : TomState) (offer : ℚ)
    (myLast : Option ℚ)
    (h3 : 3 ≤ (s.opponent_offer_history ++ [offer]).length) :
    ((s.opponent_offer_history ++ [offer]).drop
        ((s.opponent_offer_history ++ [offer]).length - 5)).length =
      min (s.opponent_offer_history ++ [offer]).length 5 ∧
    min 1 (((((s.opponent_offer_history ++ [offer]).drop
        ((s.opponent_offer_history ++ [offer]).length - 5)).length : ℕ) : ℚ) / 10) ≤ 1/2 ∧
    (update_opponent_model cfg s offer myLast).target_price_estimate =
      some (match s.target_price_estimate with
        | none => lsIntercept ((s.opponent_offer_history ++ [offer]).drop
            ((s.opponent_offer_history ++ [offer]).length - 5))
        | some old =>
            min 1 (((((s.opponent_offer_history ++ [offer]).drop
                ((s.opponent_offer_history ++ [offer]).length - 5)).length : ℕ) : ℚ) / 10) *
              lsIntercept ((s.opponent_offer_history ++ [offer]).drop
                ((s.opponent_offer_history ++ [offer]).length - 5)) +
            (1 - min 1 (((((s.opponent_offer_history ++ [offer]).drop
                ((s.opponent_offer_history ++ [offer]).length - 5)).length : ℕ) : ℚ) / 10)) * old) := by
  have hw : ((s.opponent_offer_history ++ [offer]).drop
      ((s.opponent_offer_history ++ [offer]).length - 5)).length =
      min (s.opponent_offer_history ++ [offer]).length 5 := by
    rw [List.length_drop]
    omega
  refine ⟨hw, ?_, ?_⟩
  · rw [hw]
    have h5 : min (s.opponent_offer_history ++ [offer]).length 5 ≤ 5 := min_le_right _ _
    have : ((min (s.opponent_offer_history ++ [offer]).length 5 : ℕ) : ℚ) ≤ 5 := by
      exact_mod_cast h5
    have h10 : ((min (s.opponent_offer_history ++ [offer]).length 5 : ℕ) : ℚ) / 10 ≤ 1/2 := by
      linarith
    exact le_trans (min_le_right _ _) h10
  · unfold update_opponent_model
    simp only [if_pos h3]

/-- Sample theory-of-mind configuration used by witnesses. -/
def cfgT : BaseAgent := ⟨"0xt", 0, 0, 100, 1, 1/2, 1/20, 1/2, none⟩

/-- Sample theory-of-mind state with two observed offers and no estimate. -/
def sT : TomState := ⟨none, 1/20, 1/2, 1/2, 1/2, none, 0, [100, 90], [], 2⟩

/-- Witness for `tom_target_blend`: the third observation initializes the
estimate with the window intercept directly. -/
theorem tom_target_blend_witness :
    3 ≤ (([100, 90] : List ℚ) ++ [80]).length ∧
    ((([100, 90] : List ℚ) ++ [80]).drop
        ((([100, 90] : List ℚ) ++ [80]).length - 5)).length =
      min (([100, 90] : List ℚ) ++ [80]).length 5 ∧
    min 1 ((((([100, 90] : List ℚ) ++ [80]).drop
        ((([100, 90] : List ℚ) ++ [80]).length - 5)).length : ℚ) / 10) ≤ 1/2 ∧
    (update_opponent_model cfgT sT 80 none).target_price_estimate =
      some (lsIntercept ((([100, 90] : List ℚ) ++ [80]).drop
        ((([100, 90] : List ℚ) ++ [80]).length - 5))) :=
  ⟨by norm_num, tom_target_blend cfgT sT 80 none (by norm_num [sT])⟩

/-- Behavior cluster labels of `UnifiedNegotiationAgent.cluster_behavior`. -/
inductive Cluster where
  | stubborn
  | moderate
  | cooperative
deriving DecidableEq, Repr

/-- Result dict of `cluster_behavior`. -/
structure ClusterResult where
  cluster : Cluster
  cluster_score : ℚ
  avg_concession_pct : ℚ
deriving DecidableEq, Repr

/-- The `concessions` list built by the loop in `cluster_behavior`
(unified_agent.py lines 166-175): percentage change between consecutive
offers, skipping pairs whose first element is not positive. -/
def concessionPcts : List ℚ → List ℚ
  | p :: c :: rest => (if 0 < p then [|c - p| / p * 100] else []) ++ concessionPcts (c :: rest)
  | _ => []

/-- `UnifiedNegotiationAgent.cluster_behavior` (unified_agent.py lines
142-202). -/
def cluster_behavior (offer_history : List ℚ) : ClusterResult :=
  if offer_history.length < 2 then ⟨Cluster.moderate, 1/2, 0⟩
  else
    match concessionPcts offer_history with
    | [] => ⟨Cluster.moderate, 1/2, 0⟩
    | c :: cs =>
      let avg := listMean (c :: cs)
      if avg < 2 then ⟨Cluster.stubborn, 9/10, avg⟩
      else if avg < 7 then ⟨Cluster.moderate, 1/2, avg⟩
      else ⟨Cluster.cooperative, 1/10, avg⟩

/-- `np.linspace(self.min_price, self.max_price, 20)` (unified_agent.py line
354): the 20 evenly spaced points `lo + i * (hi - lo) / 19`. -/
def linspace20 (lo hi : ℚ) : List ℚ :=
  (List.range 20).map (fun i : ℕ => lo + (hi - lo) * (i : ℚ) / 19)

/-- One iteration of the candidate loop in `optimize_offer`: Python starts
from `max_score = -inf` (modelled by `none`), and replaces the incumbent
only on a strictly greater score, so the first of several tied maxima
wins. -/
def optStep (score : ℚ → ℚ) (acc : ℚ × Option ℚ) (p : ℚ) : ℚ × Option ℚ :=
  match acc.2 with
  | none => (p, some (score p))
  | some m => if score p > m then (p, some (score p)) else acc

/-- `UnifiedNegotiationAgent.optimize_offer` (unified_agent.py lines
323-405), returning `(best_price, max_score)`; `score_details` is a dict
derived from the winning candidate and is omitted.  `beliefTarget` is
`self.beliefs['belief_target_price']`, and the four weights are the
`opt_weights` entries. -/
def optimize_offer (cfg : BaseAgent) (beliefTarget : Option ℚ)
    (opponent_offer : Option ℚ) (risk_score stubbornness : ℚ)
    (wU wF wR wS : ℚ) : ℚ × Option ℚ :=
  let opponent_target := match opponent_offer, beliefTarget with
    | some _, some b => b
    | _, _ =>
      let midpoint := (cfg.min_price + cfg.max_price) / 2
      midpoint + (midpoint - cfg.target_price)
  let score := fun price =>
    let utility := cfg.utility price
    let opponent_util := 1 - |price - opponent_target| / max 1 |cfg.max_price - cfg.min_price|
    let fairness := 1 - |utility - opponent_util|
    wU * utility + wF * fairness - wR * risk_score - wS * stubbornness
  (linspace20 cfg.min_price cfg.max_price).foldl (optStep score) (cfg.target_price, none)

/-- C6: the behavior clusterer labels the slow-moving history `stubborn`
with score `0.9 > 0.7` and the fast-conceding history `cooperative` with
score `0.1 < 0.3`. -/
theorem cluster_behavior_examples :
    (cluster_behavior [100, 100.5, 100.8, 101, 101.2]).cluster = Cluster.stubborn ∧
    (cluster_behavior [100, 100.5, 100.8, 101, 101.2]).cluster_score > 7/10 ∧
    (cluster_behavior [100, 92, 85, 78, 72]).cluster = Cluster.cooperative ∧
    (cluster_behavior [100, 92, 85, 78, 72]).cluster_score < 3/10 := by
  norm_num [cluster_behavior, concessionPcts, listMean, abs_of_nonneg]

/-- Bound preservation of the optimizer fold: the running best stays inside
any band containing the initial incumbent and every candidate. -/
lemma optFoldl_bounds (score : ℚ → ℚ) (lo hi : ℚ) :
    ∀ (l : List ℚ) (acc : ℚ × Option ℚ),
      lo ≤ acc.1 → acc.1 ≤ hi → (∀ p ∈ l, lo ≤ p ∧ p ≤ hi) →
      lo ≤ (l.foldl (optStep score) acc).1 ∧ (l.foldl (optStep score) acc).1 ≤ hi := by
  intro l
  induction l with
  | nil => intro acc h1 h2 _; exact ⟨h1, h2⟩
  | cons x xs ih =>
    intro acc h1 h2 hl
    have hx := hl x (List.mem_cons_self x xs)
    have hstep : lo ≤ (optStep score acc x).1 ∧ (optStep score acc x).1 ≤ hi := by
      unfold optStep
      rcases acc with ⟨b, mo⟩
      rcases mo with _ | m
      · exact hx
      · by_cases hgt : score x > m
        · simp only [hgt, if_true]
          exact hx
        · simp only [hgt, if_false]
          exact ⟨h1, h2⟩
    exact ih (optStep score acc x) hstep.1 hstep.2 (fun p hp => hl p (List.mem_cons_of_mem x hp))

/-- Every `linspace20` candidate lies in the band. -/
lemma linspace20_mem (lo hi : ℚ) (h : lo ≤ hi) :
    ∀ p ∈ linspace20 lo hi, lo ≤ p ∧ p ≤ hi := by
  intro p hp
  unfold linspace20 at hp
  simp only [List.mem_map, List.mem_range] at hp
  obtain ⟨i, hi19, rfl⟩ := hp
  have h0 : (0:ℚ) ≤ (i:ℚ) := Nat.cast_nonneg i
  have h19 : (i:ℚ) ≤ 19 := by exact_mod_cast Nat.le_of_lt_succ hi19
  have hd : (0:ℚ) ≤ hi - lo := by linarith
  constructor
  · have : 0 ≤ (hi - lo) * (i:ℚ) / 19 := div_nonneg (mul_nonneg hd h0) (by norm_num)
    linarith
  · have hle : (hi - lo) * (i:ℚ) / 19 ≤ hi - lo := by
      rw [div_le_iff₀ (by norm_num : (0:ℚ) < 19)]
      nlinarith
    linarith

/-- C2 counterexample: the theory-of-mind low-confidence fallback is not
clamped.  A fresh agent with band `[90, 110]` and target `100` answering an
opponent offer of `50` proposes `100 + (50 - 100) * 0.5 = 75`, strictly
below its own `min_price`. -/
theorem tom_propose_cex :
    let cfg : BaseAgent := ⟨"0xs", 100, 90, 110, 1, 1/2, 1/20, 1/2, none⟩
    (TheoryOfMindAgent.propose cfg TomState.init (some 50)).1 = 75 ∧
    ¬ (cfg.min_price ≤ (TheoryOfMindAgent.propose cfg TomState.init (some 50)).1) := by
  norm_num [TheoryOfMindAgent.propose, update_opponent_model, TomState.init,
    listMean, successiveAbsDiffs]

/-- C2 (amended): on a valid band, `BaseAgent.propose` and
`UnifiedNegotiationAgent.optimize_offer` always answer inside
`[min_price, max_price]`, and `TheoryOfMindAgent.propose` does so on its
opening move and whenever the updated belief confidence reaches `0.3`; only
its low-confidence fallback is unclamped. -/
theorem propose_in_band (a : BaseAgent)
    (h1 : a.min_price ≤ a.target_price) (h2 : a.target_price ≤ a.max_price) :
    (∀ last, a.min_price ≤ a.propose last ∧ a.propose last ≤ a.max_price) ∧
    (∀ s : TomState,
      a.min_price ≤ (TheoryOfMindAgent.propose a s none).1 ∧
      (TheoryOfMindAgent.propose a s none).1 ≤ a.max_price) ∧
    (∀ (s : TomState) (last : ℚ),
      ¬ (update_opponent_model a s last s.my_offer_history.getLast?).belief_confidence < 3/10 →
      a.min_price ≤ (TheoryOfMindAgent.propose a s (some last)).1 ∧
      (TheoryOfMindAgent.propose a s (some last)).1 ≤ a.max_price) ∧
    (∀ (bt last : Option ℚ) (risk stub wU wF wR wS : ℚ),
      a.min_price ≤ (optimize_offer a bt last risk stub wU wF wR wS).1 ∧
      (optimize_offer a bt last risk stub wU wF wR wS).1 ≤ a.max_price) := by
  have hmm : a.min_price ≤ a.max_price := le_trans h1 h2
  refine ⟨?_, ?_, ?_, ?_⟩
  · intro last
    rcases last with _ | l
    · simp only [BaseAgent.propose]
      split
      · exact a.clamp_mem _ hmm
      · exact ⟨h1, h2⟩
    · simp only [BaseAgent.propose]
      exact a.clamp_mem _ hmm
  · intro s
    simp only [TheoryOfMindAgent.propose]
    exact ⟨h1, h2⟩
  · intro s last hconf
    simp only [TheoryOfMindAgent.propose]
    rw [if_neg hconf]
    exact a.clamp_mem _ hmm
  · intro bt last risk stub wU wF wR wS
    unfold optimize_offer
    exact optFoldl_bounds _ a.min_price a.max_price _ _ h1 h2 (linspace20_mem _ _ hmm)

/-- Sample valid configuration for the proposal-bound witnesses. -/
def cfgW : BaseAgent := ⟨"0xw", 85, 50, 100, 1, 1/2, 1/20, 1/2, some 95⟩

/-- Sample theory-of-mind state whose next update reaches confidence
`2/5 ≥ 3/10` (three offers already observed). -/
def sW : TomState := ⟨some 95, 1/20, 1/2, 1/2, 1/2, some StrategyType.moderate,
  3/10, [100, 95, 92], [], 3⟩

/-- Witness for `propose_in_band` at a concrete configuration, opponent
offers, states and weights. -/
theorem propose_in_band_witness :
    (cfgW.min_price ≤ cfgW.propose (some 42) ∧ cfgW.propose (some 42) ≤ cfgW.max_price) ∧
    (cfgW.min_price ≤ (TheoryOfMindAgent.propose cfgW TomState.init none).1 ∧
      (TheoryOfMindAgent.propose cfgW TomState.init none).1 ≤ cfgW.max_price) ∧
    (cfgW.min_price ≤ (TheoryOfMindAgent.propose cfgW sW (some 90)).1 ∧
      (TheoryOfMindAgent.propose cfgW sW (some 90)).1 ≤ cfgW.max_price) ∧
    (cfgW.min_price ≤ (optimize_offer cfgW none none 0 (1/2) (2/5) (3/10) (1/5) (1/10)).1 ∧
      (optimize_offer cfgW none none 0 (1/2) (2/5) (3/10) (1/5) (1/10)).1 ≤ cfgW.max_price) :=
  let H := propose_in_band cfgW (by norm_num [cfgW]) (by norm_num [cfgW])
  ⟨H.1 (some 42), H.2.1 TomState.init,
    H.2.2.1 sW 90 (by norm_num [sW, update_opponent_model, listMean, successiveAbsDiffs]),
    H.2.2.2 none none 0 (1/2) (2/5) (3/10) (1/5) (1/10)⟩

/-- Shape of the string returned by `explain_offer` (explainer.py lines
8-86): one constructor per `return` statement, carrying the values the
string interpolates, so equal constructor applications denote equal emitted
strings.  The `direction` variable of the source is computed but never used
in any returned string and is omitted. -/
inductive Explanation where
  | openingMarket (price market : ℚ)
  | openingTarget (price : ℚ)
  | tomStubborn (price : ℚ)
  | tomCooperative (price : ℚ)
  | aggressive (role : Role) (price : ℚ)
  | generous (price : ℚ)
  | fairnessLow (price fairness : ℚ)
  | fairnessHigh (price fairness : ℚ)
  | marketBeat (role : Role) (price market : ℚ)
  | concession (pct price : ℚ)
  | balanced (price : ℚ)
deriving DecidableEq, Repr

/-- `explain_offer` (explainer.py), branch for branch.  `concession_rate` is
a parameter of the Python function but is never read, so it is omitted
here.  The `tom_insights` dict is always non-empty when present, so Python
truthiness of the dict coincides with `Option.isSome`. -/
def explain_offer (agent_type : Role) (price : ℚ) (last_opponent_offer : Option ℚ)
    (target_price aggressiveness fairness : ℚ)
    (market_price : Option ℚ) (tom_insights : Option TomSummary) : Explanation :=
  match last_opponent_offer with
  | none =>
    if marketTruthy market_price then
      let m := market_price.getD 0
      if |price - m| < |target_price - m| then Explanation.openingMarket price m
      else Explanation.openingTarget price
    else Explanation.openingTarget price
  | some last =>
    let movement := match agent_type with
      | Role.buyer => last - price
      | Role.seller => price - last
    let tomBranch : Option Explanation :=
      match tom_insights with
      | some t =>
        match t.strategy_type with
        | some StrategyType.stubborn => some (Explanation.tomStubborn price)
        | some StrategyType.cooperative => some (Explanation.tomCooperative price)
        | _ => none
      | none => none
    match tomBranch with
    | some e => e
    | none =>
      if aggressiveness > 7/10 then Explanation.aggressive agent_type price
      else if aggressiveness < 3/10 then Explanation.generous price
      else if fairness < 1/2 then Explanation.fairnessLow price fairness
      else if fairness > 4/5 then Explanation.fairnessHigh price fairness
      else if marketTruthy market_price ∧
          ((agent_type = Role.buyer ∧ price < market_price.getD 0) ∨
           (agent_type = Role.seller ∧ price > market_price.getD 0)) then
        Explanation.marketBeat agent_type price (market_price.getD 0)
      else if |movement| > 1/100 then
        Explanation.concession (|movement| / max |last| 1 * 100) price
      else Explanation.balanced price

/-- One timeline entry appended by `run_negotiation_loop` (agents.py lines
200-213).  The `proportional_fairness` entry of the Python dict is
`calculate_proportional_fairness buyer_util seller_util`, a real number
derived from two recorded fields; it is exposed as
`RoundRecord.proportional_fairness` below. -/
structure RoundRecord where
  round : ℕ
  buyer_offer : ℚ
  seller_offer : ℚ
  buyer_util : ℚ
  seller_util : ℚ
  fairness : ℚ
  buyer_explanation : Explanation
  seller_explanation : Explanation
  buyer_tom_insights : Option TomSummary
  seller_tom_insights : Option TomSummary
  market_price : Option ℚ
deriving DecidableEq, Repr

/-- The `proportional_fairness` entry of a timeline record. -/
noncomputable def RoundRecord.proportional_fairness (rd : RoundRecord) : ℝ :=
  calculate_proportional_fairness rd.buyer_util rd.seller_util

/-- The agreement dict returned by `run_negotiation_loop` (agents.py lines
222-229 and 238-245); its `proportional_fairness` entry is likewise derived
from the two recorded utilities. -/
structure Agreement where
  price : ℚ
  quantity : ℤ
  fairness : ℚ
  buyer_utility : ℚ
  seller_utility : ℚ
deriving DecidableEq, Repr

/-- The `proportional_fairness` entry of the agreement. -/
noncomputable def Agreement.proportional_fairness (a : Agreement) : ℝ :=
  calculate_proportional_fairness a.buyer_utility a.seller_utility

/-- Python `a or b` on two optional floats, as in the recorded
`buyer_agent.market_price or seller_agent.market_price`. -/
def pyOr (a b : Option ℚ) : Option ℚ := if marketTruthy a then a else b

/-- The identical finalization computation of both exits of
`run_negotiation_loop` (lines 216-220 and 232-236): mean of the two offers,
utilities and fairness recomputed at that final price. -/
def finalize (buyer seller : BaseAgent) (bprice sprice : ℚ) : Agreement :=
  let final_price := (bprice + sprice) / 2
  let final_buyer_util := buyer.utility final_price
  let final_seller_util := seller.utility final_price
  ⟨final_price, buyer.quantity, simple_fairness final_buyer_util final_seller_util,
    final_buyer_util, final_seller_util⟩

/-- One round of `run_negotiation_loop` (lines 174-213): buyer proposes
from the previous seller offer, seller answers the fresh buyer offer,
utilities are taken from the base agents, the two explanations are generated
and the record assembled.  When `useTom` is set the loop drives fresh
`TheoryOfMindAgent`s built (lines 150-166) from the base agents' target,
band, quantity, and fairness weight — their proposals depend on nothing
else, so the base configurations are passed through — while utilities and
explanation inputs still come from the base agents. -/
def loopRound (buyer seller : BaseAgent) (useTom : Bool) (tomB tomS : TomState)
    (lastSeller : Option ℚ) (r : ℕ) : RoundRecord × TomState × TomState :=
  let pB := if useTom then TheoryOfMindAgent.propose buyer tomB lastSeller
            else (buyer.propose lastSeller, tomB)
  let buyer_util := buyer.utility pB.1
  let pS := if useTom then TheoryOfMindAgent.propose seller tomS (some pB.1)
            else (seller.propose (some pB.1), tomS)
  let seller_util := seller.utility pS.1
  let fair := simple_fairness buyer_util seller_util
  let bIns := if useTom then some (get_opponent_model_summary pB.2) else none
  let sIns := if useTom then some (get_opponent_model_summary pS.2) else none
  let bExp := explain_offer Role.buyer pB.1 lastSeller buyer.target_price
    buyer.aggressiveness fair buyer.market_price bIns
  let sExp := explain_offer Role.seller pS.1 (some pB.1) seller.target_price
    seller.aggressiveness fair seller.market_price sIns
  (⟨r, pB.1, pS.1, buyer_util, seller_util, fair, bExp, sExp, bIns, sIns,
      pyOr buyer.market_price seller.market_price⟩, pB.2, pS.2)

/-- The round loop of `run_negotiation_loop`, by recursion on the remaining
round budget.  The exit condition and both finalizations mirror lines
215-245; when the budget is exhausted the final price comes from the last
non-terminating round's offers (`last_buyer`, `last_seller`), and if no
round ever ran those are still `None` and Python raises a `TypeError`,
modelled by `none`. -/
def runLoopAux (buyer seller : BaseAgent) (useTom : Bool) :
    TomState → TomState → Option ℚ → Option ℚ → ℕ → ℕ →
    Option (List RoundRecord × Agreement)
  | _, _, lastBuyer, lastSeller, _, 0 =>
    match lastBuyer, lastSeller with
    | some lb, some ls => some ([], finalize buyer seller lb ls)
    | _, _ => none
  | tomB, tomS, _, lastSeller, r, fuel + 1 =>
    let L := loopRound buyer seller useTom tomB tomS lastSeller r
    if |L.1.buyer_offer - L.1.seller_offer| ≤ 1 ∨ L.1.fairness ≥ 9/10 then
      some ([L.1], finalize buyer seller L.1.buyer_offer L.1.seller_offer)
    else
      match runLoopAux buyer seller useTom L.2.1 L.2.2 (some L.1.buyer_offer)
          (some L.1.seller_offer) (r + 1) fuel with
      | some (tl, ag) => some (L.1 :: tl, ag)
      | none => none

/-- `run_negotiation_loop` (agents.py lines 136-245): the timeline and the
agreement.  All per-run mutable state (the two theory-of-mind agents) is
created inside the call, exactly as the Python function constructs fresh
`TheoryOfMindAgent`s before its loop. -/
def run_negotiation_loop (buyer seller : BaseAgent) (max_rounds : ℕ)
    (use_tom : Bool) : Option (List RoundRecord × Agreement) :=
  runLoopAux buyer seller use_tom TomState.init TomState.init none none 1 max_rounds

/-- The record built by `loopRound` carries its round index. -/
lemma loopRound_round (buyer seller : BaseAgent) (useTom : Bool)
    (tomB tomS : TomState) (lastS : Option ℚ) (r : ℕ) :
    (loopRound buyer seller useTom tomB tomS lastS r).1.round = r := rfl

/-- One-step unfolding of `runLoopAux` on a positive budget. -/
lemma runLoopAux_succ_eq (buyer seller : BaseAgent) (useTom : Bool)
    (tomB tomS : TomState) (lastB lastS : Option ℚ) (r fuel : ℕ) :
    runLoopAux buyer seller useTom tomB tomS lastB lastS r (fuel + 1) =
      (if |(loopRound buyer seller useTom tomB tomS lastS r).1.buyer_offer -
            (loopRound buyer seller useTom tomB tomS lastS r).1.seller_offer| ≤ 1 ∨
          (loopRound buyer seller useTom tomB tomS lastS r).1.fairness ≥ 9/10 then
        some ([(loopRound buyer seller useTom tomB tomS lastS r).1],
          finalize buyer seller (loopRound buyer seller useTom tomB tomS lastS r).1.buyer_offer
            (loopRound buyer seller useTom tomB tomS lastS r).1.seller_offer)
      else
        match runLoopAux buyer seller useTom
            (loopRound buyer seller useTom tomB tomS lastS r).2.1
            (loopRound buyer seller useTom tomB tomS lastS r).2.2
            (some (loopRound buyer seller useTom tomB tomS lastS r).1.buyer_offer)
            (some (loopRound buyer seller useTom tomB tomS lastS r).1.seller_offer)
            (r + 1) fuel with
        | some (tl, ag) => some ((loopRound buyer seller useTom tomB tomS lastS r).1 :: tl, ag)
        | none => none) := rfl

/-- Structure of every run with a positive remaining budget: it succeeds,
the timeline is the rounds actually played (numbered consecutively from
`r`), no round before the last satisfies the exit condition, the last round
either satisfies it or exhausts the budget, and the agreement is the
finalization of the last round's two offers. -/
lemma runLoopAux_spec (buyer seller : BaseAgent) (useTom : Bool) :
    ∀ (fuel : ℕ) (tomB tomS : TomState) (lastB lastS : Option ℚ) (r : ℕ),
      ∃ tl ag last,
        runLoopAux buyer seller useTom tomB tomS lastB lastS r (fuel + 1) = some (tl, ag) ∧
        tl.getLast? = some last ∧
        1 ≤ tl.length ∧ tl.length ≤ fuel + 1 ∧
        (∀ q ∈ tl.dropLast, ¬ (|q.buyer_offer - q.seller_offer| ≤ 1 ∨ q.fairness ≥ 9/10)) ∧
        ((|last.buyer_offer - last.seller_offer| ≤ 1 ∨ last.fairness ≥ 9/10) ∨
          tl.length = fuel + 1) ∧
        ag = finalize buyer seller last.buyer_offer last.seller_offer ∧
        tl.map RoundRecord.round = List.range' r tl.length := by
  intro fuel
  induction fuel with
  | zero =>
    intro tomB tomS lastB lastS r
    by_cases htrig : |(loopRound buyer seller useTom tomB tomS lastS r).1.buyer_offer -
        (loopRound buyer seller useTom tomB tomS lastS r).1.seller_offer| ≤ 1 ∨
        (loopRound buyer seller useTom tomB tomS lastS r).1.fairness ≥ 9/10
    · refine ⟨[(loopRound buyer seller useTom tomB tomS lastS r).1],
        finalize buyer seller (loopRound buyer seller useTom tomB tomS lastS r).1.buyer_offer
          (loopRound buyer seller useTom tomB tomS lastS r).1.seller_offer,
        (loopRound buyer seller useTom tomB tomS lastS r).1, ?_, rfl, ?_, ?_, ?_,
        Or.inl htrig, rfl, ?_⟩
      · rw [runLoopAux_succ_eq, if_pos htrig]
      · norm_num
      · norm_num
      · simp
      · simp [loopRound_round, List.range']
    · refine ⟨[(loopRound buyer seller useTom tomB tomS lastS r).1],
        finalize buyer seller (loopRound buyer seller useTom tomB tomS lastS r).1.buyer_offer
          (loopRound buyer seller useTom tomB tomS lastS r).1.seller_offer,
        (loopRound buyer seller useTom tomB tomS lastS r).1, ?_, rfl, ?_, ?_, ?_,
        Or.inr rfl, rfl, ?_⟩
      · rw [runLoopAux_succ_eq, if_neg htrig]
        simp only [runLoopAux]
      · norm_num
      · norm_num
      · simp
      · simp [loopRound_round, List.range']
  | succ n ih =>
    intro tomB tomS lastB lastS r
    by_cases htrig : |(loopRound buyer seller useTom tomB tomS lastS r).1.buyer_offer -
        (loopRound buyer seller useTom tomB tomS lastS r).1.seller_offer| ≤ 1 ∨
        (loopRound buyer seller useTom tomB tomS lastS r).1.fairness ≥ 9/10
    · refine ⟨[(loopRound buyer seller useTom tomB tomS lastS r).1],
        finalize buyer seller (loopRound buyer seller useTom tomB tomS lastS r).1.buyer_offer
          (loopRound buyer seller useTom tomB tomS lastS r).1.seller_offer,
        (loopRound buyer seller useTom tomB tomS lastS r).1, ?_, rfl, ?_, ?_, ?_,
        Or.inl htrig, rfl, ?_⟩
      · rw [runLoopAux_succ_eq, if_pos htrig]
      · norm_num
      · simp only [List.length_singleton]
        omega
      · simp
      · simp [loopRound_round, List.range']
    · obtain ⟨tl, ag, last, heq, hlast, hlen1, hlen2, hdrop, hterm, hag, hround⟩ :=
        ih (loopRound buyer seller useTom tomB tomS lastS r).2.1
           (loopRound buyer seller useTom tomB tomS lastS r).2.2
           (some (loopRound buyer seller useTom tomB tomS lastS r).1.buyer_offer)
           (some (loopRound buyer seller useTom tomB tomS lastS r).1.seller_offer)
           (r + 1)
      obtain ⟨a, t, rfl⟩ : ∃ a t, tl = a :: t := by
        cases tl with
        | nil => simp at hlen1
        | cons a t => exact ⟨a, t, rfl⟩
      refine ⟨(loopRound buyer seller useTom tomB tomS lastS r).1 :: a :: t, ag, last,
        ?_, ?_, ?_, ?_, ?_, ?_, hag, ?_⟩
      · rw [runLoopAux_succ_eq, if_neg htrig, heq]
      · rw [List.getLast?_cons_cons]
        exact hlast
      · simp
      · simp only [List.length_cons] at hlen2 ⊢
        omega
      · rw [List.dropLast_cons₂]
        intro q hq
        rcases List.mem_cons.mp hq with hq1 | hq2
        · rw [hq1]
          exact htrig
        · exact hdrop q hq2
      · rcases hterm with h | h
        · exact Or.inl h
        · right
          simp only [List.length_cons] at h ⊢
          omega
      · simp only [List.map_cons, List.length_cons] at hround ⊢
        rw [List.range'_succ r (t.length + 1) 1, loopRound_round]
        rw [hround]

/-- C1 (amended): for every configuration and `max_rounds >= 1` the loop
stops at the first round whose record satisfies
`|buyer_offer - seller_offer| <= 1 or fairness >= 0.9` (no earlier record
satisfies it), or plays exactly `max_rounds` rounds if none does; in both
cases the agreement finalizes the last played round's two offers: its price
is their mean and its utilities and both fairness values are recomputed at
that final price (also in the exhaustion case — this recomputation is what
the original claim got wrong). -/
theorem loop_characterization (buyer seller : BaseAgent) (useTom : Bool) (n : ℕ)
    (hn : 1 ≤ n) :
    ∃ tl ag last,
      run_negotiation_loop buyer seller n useTom = some (tl, ag) ∧
      tl.getLast? = some last ∧
      1 ≤ tl.length ∧ tl.length ≤ n ∧
      (∀ q ∈ tl.dropLast, ¬ (|q.buyer_offer - q.seller_offer| ≤ 1 ∨ q.fairness ≥ 9/10)) ∧
      ((|last.buyer_offer - last.seller_offer| ≤ 1 ∨ last.fairness ≥ 9/10) ∨
        tl.length = n) ∧
      ag = finalize buyer seller last.buyer_offer last.seller_offer ∧
      ag.price = (last.buyer_offer + last.seller_offer) / 2 ∧
      ag.buyer_utility = buyer.utility ag.price ∧
      ag.seller_utility = seller.utility ag.price ∧
      ag.fairness = simple_fairness ag.buyer_utility ag.seller_utility ∧
      tl.map RoundRecord.round = List.range' 1 tl.length := by
  obtain ⟨fuel, rfl⟩ : ∃ f, n = f + 1 := ⟨n - 1, by omega⟩
  obtain ⟨tl, ag, last, heq, hlast, hlen1, hlen2, hdrop, hterm, hag, hround⟩ :=
    runLoopAux_spec buyer seller useTom fuel TomState.init TomState.init none none 1
  exact ⟨tl, ag, last, heq, hlast, hlen1, hlen2, hdrop, hterm, hag,
    by rw [hag]; rfl, by rw [hag]; rfl, by rw [hag]; rfl, by rw [hag]; rfl, hround⟩

/-- Witness for `loop_characterization` at a concrete valid configuration
and `max_rounds = 1`. -/
theorem loop_characterization_witness :
    (1 : ℕ) ≤ 1 ∧
    ∃ tl ag last,
      run_negotiation_loop ⟨"0xb", 85, 50, 100, 1, 1/2, 1/20, 1/2, none⟩
        ⟨"0xs", 95, 50, 100, 1, 1/2, 1/20, 1/2, none⟩ 1 false = some (tl, ag) ∧
      tl.getLast? = some last ∧
      1 ≤ tl.length ∧ tl.length ≤ 1 ∧
      (∀ q ∈ tl.dropLast, ¬ (|q.buyer_offer - q.seller_offer| ≤ 1 ∨ q.fairness ≥ 9/10)) ∧
      ((|last.buyer_offer - last.seller_offer| ≤ 1 ∨ last.fairness ≥ 9/10) ∨
        tl.length = 1) ∧
      ag = finalize ⟨"0xb", 85, 50, 100, 1, 1/2, 1/20, 1/2, none⟩
        ⟨"0xs", 95, 50, 100, 1, 1/2, 1/20, 1/2, none⟩ last.buyer_offer last.seller_offer ∧
      ag.price = (last.buyer_offer + last.seller_offer) / 2 ∧
      ag.buyer_utility = BaseAgent.utility ⟨"0xb", 85, 50, 100, 1, 1/2, 1/20, 1/2, none⟩ ag.price ∧
      ag.seller_utility = BaseAgent.utility ⟨"0xs", 95, 50, 100, 1, 1/2, 1/20, 1/2, none⟩ ag.price ∧
      ag.fairness = simple_fairness ag.buyer_utility ag.seller_utility ∧
      tl.map RoundRecord.round = List.range' 1 tl.length :=
  ⟨le_refl 1, loop_characterization ⟨"0xb", 85, 50, 100, 1, 1/2, 1/20, 1/2, none⟩
    ⟨"0xs", 95, 50, 100, 1, 1/2, 1/20, 1/2, none⟩ false 1 (le_refl 1)⟩

/-- C1 counterexample: buyer (target 0, band [0,100]) against seller
(target 100, band [90,100]) with `max_rounds = 1`.  The single round has
offers 0 and 90 and fairness 0, and does not satisfy the exit condition;
the claim says the agreement then carries that round's fairness value 0,
but the code recomputes fairness at the final price 45 and returns
-81/20. -/
theorem loop_final_fairness_cex :
    let buyer : BaseAgent := ⟨"0xb", 0, 0, 100, 1, 1/2, 1/20, 1/2, none⟩
    let seller : BaseAgent := ⟨"0xs", 100, 90, 100, 1, 1/2, 1/20, 1/2, none⟩
    (run_negotiation_loop buyer seller 1 false).map
      (fun p => (p.1.map (fun rd => (rd.round, rd.buyer_offer, rd.seller_offer, rd.fairness)),
                 p.2.price, p.2.fairness)) =
      some ([(1, 0, 90, 0)], 45, -81/20) ∧
    ¬ (|(0:ℚ) - 90| ≤ 1 ∨ (0:ℚ) ≥ 9/10) ∧
    (-81/20 : ℚ) ≠ 0 := by
  refine ⟨?_, by norm_num [abs_of_nonpos], by norm_num⟩
  norm_num [run_negotiation_loop, runLoopAux, loopRound, BaseAgent.propose,
    BaseAgent.utility, BaseAgent.clamp, BaseAgent.agent_type, marketTruthy,
    simple_fairness, finalize, pyOr, explain_offer, get_opponent_model_summary,
    abs_of_nonneg]

/-- C7: two invocations of `run_negotiation_loop` on identical inputs
return identical timelines and agreements, for both the base and the
theory-of-mind variant.  The embedding is a pure function because the code
keeps no state across calls: the only mutable per-run state (the two
theory-of-mind agents) is constructed fresh inside the call, so equal
inputs give equal outputs.  The exploratory reinforcement-learning agent
(`AdaptiveAgent`, which draws randomness) is never invoked by this loop. -/
theorem loop_deterministic (b1 b2 s1 s2 : BaseAgent) (n1 n2 : ℕ) (useTom : Bool)
    (hb : b1 = b2) (hs : s1 = s2) (hn : n1 = n2) :
    run_negotiation_loop b1 s1 n1 useTom = run_negotiation_loop b2 s2 n2 useTom := by
  subst hb
  subst hs
  subst hn
  rfl

/-- Witness for `loop_deterministic` at a concrete configuration with the
theory-of-mind variant enabled. -/
theorem loop_deterministic_witness :
    run_negotiation_loop ⟨"0xb", 85, 50, 100, 1, 1/2, 1/20, 1/2, none⟩
        ⟨"0xs", 95, 50, 100, 1, 1/2, 1/20, 1/2, none⟩ 8 true =
      run_negotiation_loop ⟨"0xb", 85, 50, 100, 1, 1/2, 1/20, 1/2, none⟩
        ⟨"0xs", 95, 50, 100, 1, 1/2, 1/20, 1/2, none⟩ 8 true :=
  loop_deterministic _ _ _ _ 8 8 true rfl rfl rfl

/-- C4 counterexample: a configuration with `min_price = 10 > 5 =
max_price`, target outside the band, and non-positive quantity is accepted
by construction, and `run_negotiation_loop` executes a full round on it
(the timeline has length 1): no configuration error is raised before any
round. -/
theorem no_validation_cex :
    let bad : BaseAgent := ⟨"0xb", 7, 10, 5, 0, 1/2, 1/20, 1/2, none⟩
    (run_negotiation_loop bad bad 1 false).map (fun p => p.1.length) = some 1 := by
  norm_num [run_negotiation_loop, runLoopAux, loopRound, BaseAgent.propose,
    BaseAgent.utility, BaseAgent.clamp, BaseAgent.agent_type, marketTruthy,
    simple_fairness, finalize, pyOr, explain_offer, get_opponent_model_summary,
    abs_of_nonneg]

/-- C4 (amended): no validation is performed anywhere.  For every
configuration — including ones violating every documented invariant — and
every `max_rounds >= 1`, the loop runs and returns a timeline with at least
one round; for `max_rounds = 0` it is not rejected up front either: zero
rounds execute and the final-price computation then fails on the absent
offers (a Python `TypeError`, modelled by `none`), which is not a
configuration error raised before the rounds. -/
theorem no_validation (buyer seller : BaseAgent) (useTom : Bool) (n : ℕ) (hn : 1 ≤ n) :
    (∃ tl ag, run_negotiation_loop buyer seller n useTom = some (tl, ag) ∧ 1 ≤ tl.length) ∧
    run_negotiation_loop buyer seller 0 useTom = none := by
  constructor
  · obtain ⟨fuel, rfl⟩ : ∃ f, n = f + 1 := ⟨n - 1, by omega⟩
    obtain ⟨tl, ag, last, heq, hlast, hlen1, _⟩ :=
      runLoopAux_spec buyer seller useTom fuel TomState.init TomState.init none none 1
    exact ⟨tl, ag, heq, hlen1⟩
  · rfl

/-- Witness for `no_validation` at the invalid configuration of the
counterexample. -/
theorem no_validation_witness :
    (1 : ℕ) ≤ 1 ∧
    ((∃ tl ag, run_negotiation_loop ⟨"0xb", 7, 10, 5, 0, 1/2, 1/20, 1/2, none⟩
        ⟨"0xs", 7, 10, 5, 0, 1/2, 1/20, 1/2, none⟩ 1 false = some (tl, ag) ∧ 1 ≤ tl.length) ∧
      run_negotiation_loop ⟨"0xb", 7, 10, 5, 0, 1/2, 1/20, 1/2, none⟩
        ⟨"0xs", 7, 10, 5, 0, 1/2, 1/20, 1/2, none⟩ 0 false = none) :=
  ⟨le_refl 1, no_validation ⟨"0xb", 7, 10, 5, 0, 1/2, 1/20, 1/2, none⟩
    ⟨"0xs", 7, 10, 5, 0, 1/2, 1/20, 1/2, none⟩ false 1 (le_refl 1)⟩
